import Mathlib

/-!
Verification development for the `door` repository's database synchronization
engine (`src/tools/database_sync.py`).  The definitions below are a shallow
embedding of the data model and operations of that script: rows are
association lists from column names to integer values, tables are lists of
rows, and the per-statement SQL effects (upsert, plain insert) are modelled
as explicit state-passing functions.  The theorems settle the behavioural
claims about the engine.
-/

namespace DoorSync

/-- Scalar values stored in a column.  Integer values suffice for the
properties studied here (identifiers and payloads). -/
abbrev Val := Int

/-- One tuple: an ordered mapping from column name to value, mirroring the
`RealDictCursor` row dictionaries used by the script. -/
abbrev Row := List (String × Val)

/-- `record['id']`: the primary-identifier value of a row, when the `id`
column is present. -/
def idOf (r : Row) : Option Val := r.lookup "id"

/-- One entry of a table structure as returned by the
`information_schema.columns` query in `get_table_structure`. -/
structure Col where
  column_name : String
  data_type : String
  is_nullable : String
  column_default : Option String
deriving Repr, DecidableEq

/-- `any(col['column_name'] == 'id' for col in structure)`: whether the table
structure has an `id` column. -/
def hasIdCol (struct : List Col) : Bool :=
  struct.any (fun c => c.column_name == "id")

/-! ### Upsert semantics (`insert_data`)

`insert_data` builds, for tables with an `id` column and a primary-key
constraint, the statement
`INSERT ... VALUES ... ON CONFLICT (id) DO UPDATE SET c = EXCLUDED.c`
for every non-`id` column `c`, and otherwise a plain `INSERT`.  We model the
effect of one execution of each statement on the target table state. -/

/-- Whether an existing row `x` conflicts with the incoming row `r` on the
`id` key. -/
def rowMatches (r x : Row) : Bool := idOf x == idOf r

/-- Effect of `ON CONFLICT (id) DO UPDATE SET c = EXCLUDED.c` on the
conflicting stored row `old`: every non-`id` column present in the incoming
row overwrites the stored value; the `id` column keeps its value. -/
def mergeUpsert (old new : Row) : Row :=
  old.map (fun kv =>
    (kv.1, if kv.1 == "id" then kv.2 else ((new.lookup kv.1).getD kv.2)))

/-- Effect of executing the upsert statement for one row `r` against table
state `t`: if some stored row conflicts on `id`, its non-`id` columns are
overwritten; otherwise the row is appended. -/
def applyUpsert (t : List Row) (r : Row) : List Row :=
  if t.any (rowMatches r) then
    t.map (fun x => if rowMatches r x then mergeUpsert x r else x)
  else
    t ++ [r]

/-- Effect of a plain `INSERT` (the fallback when the table lacks an `id`
column or a primary-key constraint): the row is always appended. -/
def applyPlainInsert (t : List Row) (r : Row) : List Row := t ++ [r]

/-- Effect on the target state of one successfully executed write statement,
dispatching on whether `insert_data` chose the upsert template
(`has_id_column and has_primary_key`) or the plain insert. -/
def writeOne (useUpsert : Bool) (t : List Row) (r : Row) : List Row :=
  if useUpsert then applyUpsert t r else applyPlainInsert t r

/-! ### The per-row write loop of `insert_data` -/

/-- One iteration of the inner loop of `insert_data`: attempt the write
statement for one record.  On success (`exec r`) the target state is updated
and `inserted_count` incremented; on failure the connection rolls back, the
state is unchanged and `error_count` incremented. -/
def rowStep (useUpsert : Bool) (exec : Row → Bool)
    (acc : List Row × Nat × Nat) (r : Row) : List Row × Nat × Nat :=
  if exec r then (writeOne useUpsert acc.1 r, acc.2.1 + 1, acc.2.2)
  else (acc.1, acc.2.1, acc.2.2 + 1)

/-- The outer loop `for i in range(0, len(data), batch_size)` of
`insert_data` with `batch_size = 100`: the rows are processed in chunks of
100, applying `step` to every record of each chunk in order. -/
def processBatches (step : (List Row × Nat × Nat) → Row → (List Row × Nat × Nat))
    (acc : List Row × Nat × Nat) (data : List Row) : List Row × Nat × Nat :=
  if h : data = [] then acc
  else processBatches step ((data.take 100).foldl step acc) (data.drop 100)
termination_by data.length
decreasing_by
  simp only [List.length_drop]
  have hpos : 0 < data.length := List.length_pos.mpr h
  omega

/-- `insert_data(table_name, data, target_db)`: returns the final target
state together with `(inserted_count, error_count)`.  `useUpsert` is the
computed `has_id_column and has_primary_key` flag and `exec` the outcome of
`execute_update` for each record. -/
def insertData (useUpsert : Bool) (exec : Row → Bool) (t : List Row)
    (data : List Row) : List Row × Nat × Nat :=
  if data = [] then (t, 0, 0)
  else processBatches (rowStep useUpsert exec) (t, 0, 0) data

/-! ### Idempotence of the full sync (upsert path) -/

/-- The target state after `sync_table` writes every source row with all
statements succeeding: `insert_data` applied to the full source row list. -/
def fullSyncRows (useUpsert : Bool) (t : List Row) (src : List Row) : List Row :=
  (insertData useUpsert (fun _ => true) t src).1

/-! ### `get_new_records` -/

/-- `get_new_records(table_name, source_db, target_db)`: the structure is
fetched from the source; with no structure or no `id` column the result is
empty; if the table is missing from source or target, all source rows are
returned when the source has the table and nothing otherwise; in the normal
case the source rows whose `id` is absent from the target's id set are kept.
`targetIds` is the result of the `SELECT id FROM table` query at the
target. -/
def getNewRecords (struct : List Col) (sourceExists targetExists : Bool)
    (sourceRows : List Row) (targetIds : List Val) : List Row :=
  if struct = [] then []
  else if !hasIdCol struct then []
  else if !sourceExists || !targetExists then
    (if sourceExists then sourceRows else [])
  else
    sourceRows.filter (fun r => !(targetIds.any (fun v => some v == idOf r)))

/-! ### `get_ordered_table_list` -/

/-- The fixed table dependency list of `get_ordered_table_list` (parent
tables first, junction tables after both sides, dependent tables last). -/
def dependency_order : List String := [
  "information_infosource",
  "information_infotag",
  "notes_notestypes",
  "notes_notestag",
  "stocks_stocktypes",
  "stocks_stockstatus",
  "stocks_stocktags",
  "stocks_stock",
  "stocks_stockaccount",
  "stocktypes",
  "stockstatus",
  "stocktags",
  "information_information",
  "notes_notes",
  "stocks_stocktrans",
  "information_information_tags",
  "information_infosourcemap",
  "information_infotagsourcemap",
  "information_tags",
  "notes_notestagtypemap",
  "information_infostocks",
  "information_infostockstype",
  "information_comment",
  "notes_update"]

/-- The second loop of `get_ordered_table_list`: append a discovered table
to the accumulated order unless it is already present. -/
def appendNew (acc : List String) (t : String) : List String :=
  if t ∈ acc then acc else acc ++ [t]

/-- `get_ordered_table_list(db_conn)`: tables of the dependency list that
are available, then every remaining available table in discovery order,
finally filtered by the defensive `table_exists` re-check `ex`.
`available` is the result of the catalog query of `get_table_list`. -/
def getOrderedTableList (available : List String) (ex : String → Bool) : List String :=
  let ordered := dependency_order.filter (fun t => decide (t ∈ available))
  let withExtra := available.foldl appendNew ordered
  withExtra.filter ex

/-! ### The orchestrator (`run_sync`) -/

/-- The two database endpoints managed by the syncer. -/
inductive Endpoint where
  | localDB
  | neonDB
deriving DecidableEq, Repr

/-- The two kinds of per-direction phases: the incremental
`sync_new_records_from_database` and the full `sync_database`. -/
inductive PhaseKind where
  | newRecordsOnly
  | fullSync
deriving DecidableEq, Repr

/-- One phase dispatched by `run_sync`: its kind and its source and target
endpoints. -/
structure Phase where
  kind : PhaseKind
  source : Endpoint
  target : Endpoint
deriving DecidableEq, Repr

/-- The phases `run_sync` executes for a given direction, in order: the
`smart-sync` branch runs the incremental Neon→Local phase then the full
Local→Neon phase; `local-to-neon` and `both` run the full Local→Neon phase;
independently, `neon-to-local` and `both` run the full Neon→Local phase. -/
def runPhases (direction : String) : List Phase :=
  (if direction == "smart-sync" then
     [⟨PhaseKind.newRecordsOnly, Endpoint.neonDB, Endpoint.localDB⟩,
      ⟨PhaseKind.fullSync, Endpoint.localDB, Endpoint.neonDB⟩]
   else if direction == "local-to-neon" || direction == "both" then
     [⟨PhaseKind.fullSync, Endpoint.localDB, Endpoint.neonDB⟩]
   else [])
  ++ (if direction == "neon-to-local" || direction == "both" then
       [⟨PhaseKind.fullSync, Endpoint.neonDB, Endpoint.localDB⟩]
     else [])

/-- `run_sync`'s `success` flag: it starts `True` and is cleared by every
phase that reports failure; no phase failure stops later phases. -/
def runSuccess (direction : String) (outcome : Phase → Bool) : Bool :=
  (runPhases direction).foldl (fun s p => s && outcome p) true

/-- Both `sync_database` and `sync_new_records_from_database` iterate
`get_ordered_table_list(source_db)`: the table list of a phase comes from
its source endpoint. -/
def phaseTableList (p : Phase) (tablesOf : Endpoint → List String)
    (exOf : Endpoint → String → Bool) : List String :=
  getOrderedTableList (tablesOf p.source) (exOf p.source)

/-- Observable resource events of one `run_sync` execution. -/
inductive Event where
  | connectLocal
  | connectNeon
  | phaseRun (p : Phase)
  | disconnectLocal
  | disconnectNeon
deriving DecidableEq, Repr

/-- The event trace and return value of `run_sync`: connect both endpoints;
if either connection failed, return `False` immediately; otherwise run the
phases of the direction and, in the `finally` block, disconnect both
endpoints. -/
def runTrace (localOk neonOk : Bool) (direction : String)
    (outcome : Phase → Bool) : List Event × Bool :=
  if !localOk || !neonOk then
    ([Event.connectLocal, Event.connectNeon], false)
  else
    ([Event.connectLocal, Event.connectNeon] ++
        (runPhases direction).map Event.phaseRun ++
        [Event.disconnectLocal, Event.disconnectNeon],
      runSuccess direction outcome)

/-! ### `execute_query` -/

/-- `execute_query(query, params)`: the cursor's execute-and-fetch either
produces rows or raises; the wrapper catches every exception, attempts a
rollback (whose own failure is also swallowed) and returns the empty list.
The second component records whether a rollback was attempted. -/
def executeQuery (fetchResult : Except String (List Row))
    (rollbackOk : Bool) : List Row × Bool :=
  match fetchResult, rollbackOk with
  | Except.ok rows, _ => (rows, false)
  | Except.error _, _ => ([], true)

/-! ### `sync_stats` -/

/-- The counters of `self.sync_stats` (timestamps are omitted: only the
counters are subject to the monotonicity claims). -/
structure SyncStats where
  tables_synced : Nat
  records_synced : Nat
  errors : Nat
deriving Repr, DecidableEq

/-- `DatabaseSyncer.__init__`: a freshly constructed syncer — one per run of
`main()` — starts with every counter at zero. -/
def initStats : SyncStats := ⟨0, 0, 0⟩

/-- Outcome of one `sync_table` (or `sync_new_records_only`) call, by the
code path taken. -/
inductive TableResult where
  /-- Table absent from the source: treated as success, no counter change. -/
  | skippedMissing
  /-- Empty structure result: one error, table-level failure. -/
  | noStructure
  /-- Target table creation failed: one error, table-level failure. -/
  | createFailed
  /-- Rows were written: `inserted` rows succeeded and `errored` failed. -/
  | synced (inserted errored : Nat)
  /-- Unexpected exception caught: one error, table-level failure. -/
  | raised
deriving Repr, DecidableEq

/-- Counter updates performed by one `sync_table` /
`sync_new_records_only` call (neither ever touches `tables_synced`). -/
def syncTableStats (r : TableResult) (s : SyncStats) : SyncStats :=
  match r with
  | TableResult.skippedMissing => s
  | TableResult.noStructure => { s with errors := s.errors + 1 }
  | TableResult.createFailed => { s with errors := s.errors + 1 }
  | TableResult.synced ins err =>
      { s with records_synced := s.records_synced + ins, errors := s.errors + err }
  | TableResult.raised => { s with errors := s.errors + 1 }

/-- The boolean a `sync_table` call returns on each path. -/
def syncTableOk (r : TableResult) : Bool :=
  match r with
  | TableResult.skippedMissing => true
  | TableResult.synced _ _ => true
  | _ => false

/-- `sync_database`: sync each table in order and increment `tables_synced`
exactly when the `sync_table` call returned `True`. -/
def syncDatabaseStats (results : List TableResult) (s : SyncStats) : SyncStats :=
  results.foldl (fun st r =>
    let st' := syncTableStats r st
    if syncTableOk r then { st' with tables_synced := st'.tables_synced + 1 }
    else st') s

/-- `sync_new_records_from_database`: sync new records for each table; the
branch deliberately does not increment `tables_synced` on success. -/
def syncNewRecordsStats (results : List TableResult) (s : SyncStats) : SyncStats :=
  results.foldl (fun st r => syncTableStats r st) s

/-- Pointwise order on the counters. -/
def statsLe (a b : SyncStats) : Prop :=
  a.tables_synced ≤ b.tables_synced ∧
  a.records_synced ≤ b.records_synced ∧
  a.errors ≤ b.errors

/-! ### `create_table_if_not_exists` column translation -/

/-- Whether the character list `l` starts with the pattern `p`. -/
def startsWithChars : List Char → List Char → Bool
  | [], _ => true
  | _ :: _, [] => false
  | p :: ps, c :: cs => p == c && startsWithChars ps cs

/-- Whether the pattern occurs as a contiguous substring. -/
def hasSubChars (pat : List Char) : List Char → Bool
  | [] => pat.isEmpty
  | c :: cs => startsWithChars pat (c :: cs) || hasSubChars pat cs

/-- Python's substring test `pat in s`. -/
def strContains (s pat : String) : Bool := hasSubChars pat.toList s.toList

/-- The literal head of the pattern `nextval\('([^']+)'`. -/
def nextvalPat : List Char := "nextval('".toList

/-- `re.search(r"nextval\('([^']+)'", s)` on the character list: at each
position, match the literal `nextval('`, then capture one or more non-quote
characters followed by a closing quote; otherwise continue scanning. -/
def scanSeqName : List Char → Option (List Char)
  | [] => none
  | c :: cs =>
    match (if startsWithChars nextvalPat (c :: cs) then
             (let after := (c :: cs).drop nextvalPat.length
              let name := after.takeWhile (fun x => !(x == '\''))
              if name.isEmpty then none
              else if name.length == after.length then none
              else some name)
           else none) with
    | some n => some n
    | none => scanSeqName cs

/-- The captured sequence name of the `nextval` default, when the regular
expression matches. -/
def seqNameOf (s : String) : Option String :=
  (scanSeqName s.toList).map (fun cs => String.mk cs)

/-- The column definition `create_table_if_not_exists` emits for one source
column: name and type, `NOT NULL` when not nullable, then the default
handling — a default containing `nextval` whose sequence name is extracted
turns an `integer`-typed column into `SERIAL` and any other column into the
bare name and type (dropping both the default and the `NOT NULL`); other
defaults are carried over literally. -/
def colDef (col : Col) : String :=
  let base := "\"" ++ col.column_name ++ "\" " ++ col.data_type
  let withNull := if col.is_nullable == "NO" then base ++ " NOT NULL" else base
  match col.column_default with
  | none => withNull
  | some d =>
    if strContains d "nextval" then
      match seqNameOf d with
      | some _ =>
        if strContains col.data_type "integer" then
          "\"" ++ col.column_name ++ "\" SERIAL"
        else
          "\"" ++ col.column_name ++ "\" " ++ col.data_type
      | none => withNull ++ " DEFAULT " ++ d
    else withNull ++ " DEFAULT " ++ d

/-- The sequence names `create_table_if_not_exists` collects for one
column: exactly the extracted name when the column default contains
`nextval` and the regular expression matches. -/
def colSeqs (col : Col) : List String :=
  match col.column_default with
  | none => []
  | some d =>
    if strContains d "nextval" then
      match seqNameOf d with
      | some s => [s]
      | none => []
    else []

/-- The `sequences_to_create` list accumulated over the whole structure. -/
def sequencesToCreate (struct : List Col) : List String :=
  struct.foldl (fun acc c => acc ++ colSeqs c) []

/-- The `CREATE SEQUENCE IF NOT EXISTS` statements issued before the table
is created. -/
def createSequenceStatements (struct : List Col) : List String :=
  (sequencesToCreate struct).map (fun s => "CREATE SEQUENCE IF NOT EXISTS " ++ s)

/-- The `ALTER SEQUENCE ... OWNED BY` statements issued after the table is
created: every collected sequence is bound to the table's `id` column,
whichever column carried the default. -/
def ownershipStatements (table : String) (struct : List Col) : List String :=
  (sequencesToCreate struct).map
    (fun s => "ALTER SEQUENCE " ++ s ++ " OWNED BY " ++ table ++ ".id")

/-- The ten-row batch of the partial-failure scenario: rows with identifiers
1 through 10. -/
def tenRows : List Row := (List.range 10).map (fun i => [("id", (i : Int) + 1)])

/-- Statement execution outcome in which exactly the row with identifier 6
violates a constraint. -/
def failsOnSix (r : Row) : Bool := !(idOf r == some 6)

theorem idOf_mergeUpsert (old new : Row) : idOf (mergeUpsert old new) = idOf old := by
  induction old with
  | nil => rfl
  | cons kv rest ih =>
    rcases kv with ⟨k, v⟩
    by_cases h : k = "id"
    · subst h
      simp [mergeUpsert, idOf, List.lookup]
    · have h2 : ("id" == k) = false := beq_eq_false_iff_ne.mpr (Ne.symm h)
      simp only [mergeUpsert, idOf, List.map_cons, List.lookup, h2] at *
      exact ih

/-- Upserting preserves an existing `id`-conflict: any row that already had a
conflicting stored row still has one afterwards. -/
theorem rowMatches_applyUpsert_of_mem (t : List Row) (r r' : Row)
    (h : (t.any (rowMatches r')) = true) :
    ((applyUpsert t r).any (rowMatches r')) = true := by
  unfold applyUpsert
  by_cases hc : t.any (rowMatches r) = true
  · simp only [hc, if_pos]
    rcases List.any_eq_true.mp h with ⟨x, hx, hxr⟩
    refine List.any_eq_true.mpr ?_
    refine ⟨if rowMatches r x then mergeUpsert x r else x, List.mem_map.mpr ⟨x, hx, rfl⟩, ?_⟩
    by_cases hm : rowMatches r x
    · simp only [hm, if_pos]
      unfold rowMatches at *
      rw [idOf_mergeUpsert]
      exact hxr
    · simp [hm, hxr]
  · simp only [hc, if_neg, Bool.not_eq_true]
    rcases List.any_eq_true.mp h with ⟨x, hx, hxr⟩
    exact List.any_eq_true.mpr ⟨x, List.mem_append_left _ hx, hxr⟩

/-- After upserting `r`, some stored row conflicts with `r` on `id`. -/
theorem rowMatches_applyUpsert_self (t : List Row) (r : Row) :
    ((applyUpsert t r).any (rowMatches r)) = true := by
  unfold applyUpsert
  by_cases hc : t.any (rowMatches r) = true
  · simp only [hc, if_pos]
    rcases List.any_eq_true.mp hc with ⟨x, hx, hxr⟩
    refine List.any_eq_true.mpr ?_
    refine ⟨if rowMatches r x then mergeUpsert x r else x, List.mem_map.mpr ⟨x, hx, rfl⟩, ?_⟩
    simp only [hxr, if_pos]
    unfold rowMatches at *
    rw [idOf_mergeUpsert]
    exact hxr
  · simp only [hc, if_neg, Bool.not_eq_true]
    refine List.any_eq_true.mpr ⟨r, List.mem_append_right _ (List.mem_singleton.mpr rfl), ?_⟩
    unfold rowMatches
    exact beq_self_eq_true _

/-- The upsert adds a row exactly when no stored row conflicted on `id`. -/
theorem length_applyUpsert (t : List Row) (r : Row) :
    (applyUpsert t r).length =
      (if t.any (rowMatches r) then t.length else t.length + 1) := by
  unfold applyUpsert
  by_cases hc : t.any (rowMatches r) = true
  · simp [hc]
  · simp [hc]

/-- Chunking the rows into batches of 100 processes exactly the same records
in exactly the same order as a single pass. -/
theorem processBatches_eq_foldl
    (step : (List Row × Nat × Nat) → Row → (List Row × Nat × Nat)) :
    ∀ (n : Nat) (data : List Row), data.length ≤ n →
      ∀ acc, processBatches step acc data = data.foldl step acc := by
  intro n
  induction n with
  | zero =>
    intro data hlen acc
    have hd : data = [] := List.eq_nil_of_length_eq_zero (Nat.le_zero.mp hlen)
    subst hd
    rw [processBatches]
    simp
  | succ n ih =>
    intro data hlen acc
    rw [processBatches]
    by_cases h : data = []
    · simp [h]
    · rw [dif_neg h]
      rw [ih (data.drop 100) ?_ _]
      · rw [← List.foldl_append, List.take_append_drop]
      · have hpos : 0 < data.length := List.length_pos.mpr h
        have hdl : (data.drop 100).length = data.length - 100 := List.length_drop _ _
        omega

/-- Full characterization of the write loop: the final state is the fold of
the per-row write over exactly the successful records, the inserted count is
the number of successful records, and the error count the number of failed
ones — rows after a failure are still attempted and rows before it keep
their effect. -/
theorem foldl_rowStep_eq (u : Bool) (e : Row → Bool) :
    ∀ (data : List Row) (t : List Row) (i err : Nat),
      data.foldl (rowStep u e) (t, i, err) =
        ((data.filter e).foldl (writeOne u) t,
          i + (data.filter e).length,
          err + (data.filter (fun r => !(e r))).length) := by
  intro data
  induction data with
  | nil => simp
  | cons r rest ih =>
    intro t i err
    by_cases h : e r
    · simp only [List.foldl_cons, rowStep, h, if_pos, List.filter_cons]
      rw [ih]
      simp [h]
      omega
    · simp only [List.foldl_cons, rowStep, h, Bool.false_eq_true, if_neg,
        not_false_iff, List.filter_cons]
      rw [ih]
      simp [h]
      omega

theorem writeOne_true : writeOne true = applyUpsert := by
  funext t r
  simp [writeOne]

/-- `insert_data` in terms of the single-pass fold. -/
theorem insertData_eq (u : Bool) (e : Row → Bool) (t : List Row)
    (data : List Row) :
    insertData u e t data =
      ((data.filter e).foldl (writeOne u) t,
        (data.filter e).length,
        (data.filter (fun r => !(e r))).length) := by
  unfold insertData
  by_cases h : data = []
  · simp [h]
  · rw [if_neg h,
      processBatches_eq_foldl (rowStep u e) data.length data (Nat.le_refl _),
      foldl_rowStep_eq]
    simp

theorem fullSyncRows_true_eq (t src : List Row) :
    fullSyncRows true t src = src.foldl applyUpsert t := by
  unfold fullSyncRows
  rw [insertData_eq]
  simp [writeOne_true]

/-- A fold of upserts preserves an existing `id`-conflict. -/
theorem any_rowMatches_foldl (s : List Row) (r' : Row) :
    ∀ (t : List Row), (t.any (rowMatches r')) = true →
      ((s.foldl applyUpsert t).any (rowMatches r')) = true := by
  induction s with
  | nil => intro t h; exact h
  | cons r rest ih =>
    intro t h
    exact ih (applyUpsert t r) (rowMatches_applyUpsert_of_mem t r r' h)

/-- After a full sync, every source row has a conflicting stored row. -/
theorem all_match_after_fullSync (s : List Row) :
    ∀ (t : List Row), ∀ r ∈ s, ((s.foldl applyUpsert t).any (rowMatches r)) = true := by
  induction s with
  | nil => intro t r hr; cases hr
  | cons r0 rest ih =>
    intro t r hr
    rcases List.mem_cons.mp hr with h | h
    · subst h
      exact any_rowMatches_foldl rest r (applyUpsert t r)
        (rowMatches_applyUpsert_self t r)
    · exact ih (applyUpsert t r0) r h

/-- Folding upserts over rows that all conflict with the target keeps the
row count unchanged. -/
theorem length_foldl_applyUpsert_of_all_match (s : List Row) :
    ∀ (t : List Row), (∀ r ∈ s, (t.any (rowMatches r)) = true) →
      (s.foldl applyUpsert t).length = t.length := by
  induction s with
  | nil => intro t _; rfl
  | cons r rest ih =>
    intro t h
    have h0 : (t.any (rowMatches r)) = true := h r (List.mem_cons_self _ _)
    have hlen : (applyUpsert t r).length = t.length := by
      rw [length_applyUpsert, if_pos h0]
    rw [List.foldl_cons,
      ih (applyUpsert t r)
        (fun r' hr' => rowMatches_applyUpsert_of_mem t r r' (h r' (List.mem_cons_of_mem _ hr'))),
      hlen]

/-- Folding `appendNew` only ever appends: the accumulator is a prefix of
the result. -/
theorem foldl_appendNew_extends (l : List String) :
    ∀ acc, ∃ rest, l.foldl appendNew acc = acc ++ rest := by
  induction l with
  | nil => intro acc; exact ⟨[], by simp⟩
  | cons t l ih =>
    intro acc
    rw [List.foldl_cons]
    by_cases h : t ∈ acc
    · simpa [appendNew, h] using ih acc
    · rcases ih (acc ++ [t]) with ⟨r, hr⟩
      refine ⟨[t] ++ r, ?_⟩
      rw [← List.append_assoc]
      simpa [appendNew, h] using hr

/-- On a duplicate-free discovery list, the second loop appends exactly the
available tables not already in the accumulated order, in discovery
order. -/
theorem foldl_appendNew_eq (l : List String) :
    l.Nodup → ∀ acc, l.foldl appendNew acc =
      acc ++ l.filter (fun t => !(decide (t ∈ acc))) := by
  induction l with
  | nil => intro _ acc; simp
  | cons t l ih =>
    intro hnd acc
    rcases List.nodup_cons.mp hnd with ⟨htl, hln⟩
    rw [List.foldl_cons, List.filter_cons]
    by_cases h : t ∈ acc
    · have hb : (!(decide (t ∈ acc))) = false := by simp [h]
      rw [hb, if_neg (by simp)]
      simpa [appendNew, h] using ih hln acc
    · have hb : (!(decide (t ∈ acc))) = true := by simp [h]
      rw [hb, if_pos rfl]
      have hstep : l.foldl appendNew (acc ++ [t]) =
          (acc ++ [t]) ++ l.filter (fun s => !(decide (s ∈ acc ++ [t]))) :=
        ih hln (acc ++ [t])
      have hfil : l.filter (fun s => !(decide (s ∈ acc ++ [t]))) =
          l.filter (fun s => !(decide (s ∈ acc))) := by
        refine List.filter_congr ?_
        intro s hs
        have hst : s ≠ t := fun he => htl (he ▸ hs)
        simp [List.mem_append, hst]
      rw [appendNew, if_neg h, hstep, hfil, List.append_assoc,
        List.singleton_append]

theorem statsLe_trans {a b c : SyncStats} (hab : statsLe a b) (hbc : statsLe b c) :
    statsLe a c :=
  ⟨hab.1.trans hbc.1, hab.2.1.trans hbc.2.1, hab.2.2.trans hbc.2.2⟩

theorem statsLe_syncTableStats (r : TableResult) (s : SyncStats) :
    statsLe s (syncTableStats r s) := by
  cases r <;> simp [syncTableStats, statsLe]

theorem statsLe_syncDatabaseStep (r : TableResult) (s : SyncStats) :
    statsLe s (if syncTableOk r then
      { syncTableStats r s with tables_synced := (syncTableStats r s).tables_synced + 1 }
    else syncTableStats r s) := by
  by_cases h : syncTableOk r
  · rw [if_pos h]
    refine statsLe_trans (statsLe_syncTableStats r s) ?_
    exact ⟨Nat.le_succ _, Nat.le_refl _, Nat.le_refl _⟩
  · rw [if_neg h]
    exact statsLe_syncTableStats r s

theorem statsLe_foldl (f : SyncStats → TableResult → SyncStats)
    (hf : ∀ s r, statsLe s (f s r)) :
    ∀ (results : List TableResult) (s : SyncStats), statsLe s (results.foldl f s) := by
  intro results
  induction results with
  | nil => intro s; exact ⟨Nat.le_refl _, Nat.le_refl _, Nat.le_refl _⟩
  | cons r rest ih =>
    intro s
    exact statsLe_trans (hf s r) (ih (f s r))

/-- `sync_table` and `sync_new_records_only` leave `tables_synced`
untouched on every path. -/
theorem syncTableStats_tables (r : TableResult) (s : SyncStats) :
    (syncTableStats r s).tables_synced = s.tables_synced := by
  cases r <;> rfl

theorem syncNewRecordsStats_tables (results : List TableResult) :
    ∀ s, (syncNewRecordsStats results s).tables_synced = s.tables_synced := by
  induction results with
  | nil => intro s; rfl
  | cons r rest ih =>
    intro s
    unfold syncNewRecordsStats at *
    rw [List.foldl_cons, ih, syncTableStats_tables]

theorem syncDatabaseStats_tables (results : List TableResult) :
    ∀ s, (syncDatabaseStats results s).tables_synced =
      s.tables_synced + (results.filter syncTableOk).length := by
  induction results with
  | nil => intro s; simp [syncDatabaseStats]
  | cons r rest ih =>
    intro s
    unfold syncDatabaseStats at *
    rw [List.foldl_cons, List.filter_cons]
    by_cases h : syncTableOk r
    · rw [ih, if_pos (by rw [h])]
      simp [h, syncTableStats_tables]
      omega
    · have hb : syncTableOk r = false := Bool.not_eq_true _ |>.mp h
      rw [ih, hb]
      simp [syncTableStats_tables]

end DoorSync

namespace DoorSync

/-- C2: `get_new_records` returns exactly the source rows whose `id` value
is absent from the target's id set (and inserting such a row appends it
without touching any existing target row); a table whose structure has no
`id` column yields the empty list; concretely, with target identifiers
`{1,2,3}` and source identifiers `{1,...,5}` exactly the rows for 4 and 5
are returned. -/
theorem get_new_records_spec :
    (∀ (struct : List Col) (se te : Bool) (sRows : List Row) (tIds : List Val),
        hasIdCol struct = false → getNewRecords struct se te sRows tIds = []) ∧
    (∀ (struct : List Col) (sRows : List Row) (tIds : List Val) (r : Row),
        struct ≠ [] → hasIdCol struct = true →
        (r ∈ getNewRecords struct true true sRows tIds ↔
          r ∈ sRows ∧ ∀ v ∈ tIds, some v ≠ idOf r)) ∧
    (∀ (t : List Row) (r : Row), (t.any (rowMatches r)) = false →
        applyUpsert t r = t ++ [r]) ∧
    getNewRecords [⟨"id", "integer", "NO", none⟩] true true
        [[("id", 1)], [("id", 2)], [("id", 3)], [("id", 4)], [("id", 5)]]
        [1, 2, 3] =
      [[("id", 4)], [("id", 5)]] := by
  refine ⟨?_, ?_, ?_, by decide⟩
  · intro struct se te sRows tIds h
    unfold getNewRecords
    by_cases hs : struct = []
    · rw [if_pos hs]
    · rw [if_neg hs]
      simp [h]
  · intro struct sRows tIds r hne hid
    unfold getNewRecords
    rw [if_neg hne, hid]
    simp [List.mem_filter]
  · intro t r h
    unfold applyUpsert
    rw [if_neg (by simp [h])]

/-- Witness for C2: the no-`id`-column case on a one-column structure, the
membership characterization at the `{1,2,3}` / `{1,...,5}` instance, and the
pure-append behaviour for a fresh row. -/
theorem get_new_records_spec_witness :
    getNewRecords [⟨"name", "text", "YES", none⟩] true true [[("id", 1)]] [] = [] ∧
    ([("id", 4)] ∈ getNewRecords [⟨"id", "integer", "NO", none⟩] true true
        [[("id", 1)], [("id", 2)], [("id", 3)], [("id", 4)], [("id", 5)]] [1, 2, 3] ↔
      ([("id", 4)] ∈
          ([[("id", 1)], [("id", 2)], [("id", 3)], [("id", 4)], [("id", 5)]] : List Row) ∧
        ∀ v ∈ ([1, 2, 3] : List Val), some v ≠ idOf [("id", 4)])) ∧
    applyUpsert [[("id", 1)]] [("id", 2)] = [[("id", 1)]] ++ [[("id", 2)]] :=
  ⟨get_new_records_spec.1 _ _ _ _ _ (by decide),
   get_new_records_spec.2.1 _ _ _ _ (by decide) (by decide),
   get_new_records_spec.2.2.1 _ _ (by decide)⟩

/-- C4: for any two tables A and B with A before B in the fixed dependency
list, both reported by the catalog query and both passing the existence
re-check, `get_ordered_table_list` places A before B; and on a
duplicate-free catalog result the pre-check order is exactly the dependency
tables followed by the remaining discovered tables in discovery order. -/
theorem get_ordered_table_list_spec :
    (∀ (available : List String) (ex : String → Bool) (A B : String),
        List.Sublist [A, B] dependency_order → A ∈ available → B ∈ available →
        ex A = true → ex B = true →
        List.Sublist [A, B] (getOrderedTableList available ex)) ∧
    (∀ (available : List String) (ex : String → Bool), available.Nodup →
        getOrderedTableList available ex =
          (dependency_order.filter (fun t => decide (t ∈ available)) ++
            available.filter (fun t =>
              !(decide (t ∈ dependency_order.filter
                  (fun s => decide (s ∈ available)))))).filter ex) := by
  constructor
  · intro available ex A B hAB hA hB hexA hexB
    change List.Sublist [A, B]
      (List.filter ex (List.foldl appendNew
        (List.filter (fun t => decide (t ∈ available)) dependency_order) available))
    have h1 : List.Sublist [A, B]
        (dependency_order.filter (fun t => decide (t ∈ available))) := by
      have := hAB.filter (fun t => decide (t ∈ available))
      simpa [List.filter_cons, hA, hB] using this
    rcases foldl_appendNew_extends available
        (dependency_order.filter (fun t => decide (t ∈ available))) with ⟨rest, hrest⟩
    rw [hrest]
    have h2 : List.Sublist [A, B]
        (dependency_order.filter (fun t => decide (t ∈ available)) ++ rest) :=
      h1.trans (List.sublist_append_left _ _)
    have := h2.filter ex
    simpa [List.filter_cons, hexA, hexB] using this
  · intro available ex hnd
    change List.filter ex (List.foldl appendNew
        (List.filter (fun t => decide (t ∈ available)) dependency_order) available) = _
    rw [foldl_appendNew_eq available hnd]

/-- Witness for C4 on a concrete database: tables discovered in the order
`information_information`, `information_infosource`, `zzz_extra`; the parent
`information_infosource` is re-ordered before its child and the unknown
table `zzz_extra` is appended last. -/
theorem get_ordered_table_list_spec_witness :
    List.Sublist ["information_infosource", "information_information"]
      (getOrderedTableList
        ["information_information", "information_infosource", "zzz_extra"]
        (fun _ => true)) ∧
    getOrderedTableList
        ["information_information", "information_infosource", "zzz_extra"]
        (fun _ => true) =
      (dependency_order.filter (fun t => decide
          (t ∈ ["information_information", "information_infosource", "zzz_extra"])) ++
        ["information_information", "information_infosource", "zzz_extra"].filter
          (fun t => !(decide (t ∈ dependency_order.filter
            (fun s => decide
              (s ∈ ["information_information", "information_infosource", "zzz_extra"])))))).filter
        (fun _ => true) :=
  ⟨get_ordered_table_list_spec.1 _ _ _ _ (by decide) (by decide) (by decide) rfl rfl,
   get_ordered_table_list_spec.2 _ _ (by decide)⟩

end DoorSync

namespace DoorSync

/-- C3: for a table with both an `id` column and a primary-key constraint
(`insert_data` then takes the upsert branch), running the full sync twice in
succession from an unchanged source state leaves the target with the same
row count as running it once: the conflict clause overwrites rather than
duplicates. -/
theorem sync_table_full_sync_idempotent_row_count
    (struct : List Col) (hasPK : Bool) (t s : List Row)
    (hId : hasIdCol struct = true) (hPK : hasPK = true) :
    (fullSyncRows (hasIdCol struct && hasPK)
        (fullSyncRows (hasIdCol struct && hasPK) t s) s).length =
      (fullSyncRows (hasIdCol struct && hasPK) t s).length := by
  rw [hId, hPK]
  simp only [Bool.and_self]
  simp only [fullSyncRows_true_eq]
  exact length_foldl_applyUpsert_of_all_match s _ (all_match_after_fullSync s t)

/-- Witness for C3 at a concrete table: structure `[id integer NOT NULL]`
with a primary key, source rows with identifiers 1 and 2, empty target. -/
theorem sync_table_full_sync_idempotent_row_count_witness :
    hasIdCol [⟨"id", "integer", "NO", none⟩] = true ∧
    (fullSyncRows (hasIdCol [⟨"id", "integer", "NO", none⟩] && true)
        (fullSyncRows (hasIdCol [⟨"id", "integer", "NO", none⟩] && true)
          [] [[("id", 1)], [("id", 2)]]) [[("id", 1)], [("id", 2)]]).length =
      (fullSyncRows (hasIdCol [⟨"id", "integer", "NO", none⟩] && true)
        [] [[("id", 1)], [("id", 2)]]).length :=
  ⟨by decide,
   sync_table_full_sync_idempotent_row_count
     [⟨"id", "integer", "NO", none⟩] true [] [[("id", 1)], [("id", 2)]]
     (by decide) rfl⟩

/-- C5: `insert_data` applies the write statement once per row
independently: every row is counted exactly once as inserted or errored,
the final state is the fold of the write over exactly the successful rows
(so a failure on row N neither discards the effects of earlier rows nor
prevents later rows from being attempted), and in a batch of 10 rows where
only row 6 fails the result is 9 inserted and 1 error. -/
theorem insert_data_per_row_isolation :
    (∀ (u : Bool) (e : Row → Bool) (t data : List Row),
        (insertData u e t data).2.1 + (insertData u e t data).2.2 = data.length ∧
        (insertData u e t data).1 = (data.filter e).foldl (writeOne u) t) ∧
    (insertData true failsOnSix [] tenRows).2 = (9, 1) := by
  constructor
  · intro u e t data
    rw [insertData_eq]
    exact ⟨(List.length_eq_length_filter_add e).symm, rfl⟩
  · rw [insertData_eq]
    decide

/-- C1: a `smart-sync` run executes exactly two phases in fixed order —
first the incremental new-records sync Neon→Local, then the full sync
Local→Neon — the second phase runs regardless of the first phase's outcome,
a first-phase failure is recorded in the overall result rather than being
fatal, and each phase iterates `ordered_tables` of its own source
endpoint. -/
theorem smart_sync_two_phases (outcome : Phase → Bool)
    (tablesOf : Endpoint → List String) (exOf : Endpoint → String → Bool) :
    runPhases "smart-sync" =
      [⟨PhaseKind.newRecordsOnly, Endpoint.neonDB, Endpoint.localDB⟩,
       ⟨PhaseKind.fullSync, Endpoint.localDB, Endpoint.neonDB⟩] ∧
    runSuccess "smart-sync" outcome =
      (outcome ⟨PhaseKind.newRecordsOnly, Endpoint.neonDB, Endpoint.localDB⟩ &&
        outcome ⟨PhaseKind.fullSync, Endpoint.localDB, Endpoint.neonDB⟩) ∧
    phaseTableList ⟨PhaseKind.newRecordsOnly, Endpoint.neonDB, Endpoint.localDB⟩
        tablesOf exOf =
      getOrderedTableList (tablesOf Endpoint.neonDB) (exOf Endpoint.neonDB) ∧
    phaseTableList ⟨PhaseKind.fullSync, Endpoint.localDB, Endpoint.neonDB⟩
        tablesOf exOf =
      getOrderedTableList (tablesOf Endpoint.localDB) (exOf Endpoint.localDB) := by
  refine ⟨rfl, ?_, rfl, rfl⟩
  simp [runSuccess, runPhases]

/-- C6 fails on the code: when the local connection attempt fails,
`run_sync` returns `False` before entering the `try`/`finally` block, so
neither endpoint is disconnected — the trace contains no disconnect
event. -/
theorem run_sync_disconnect_counterexample :
    ¬ (Event.disconnectLocal ∈ (runTrace false true "smart-sync" (fun _ => true)).1 ∧
       Event.disconnectNeon ∈ (runTrace false true "smart-sync" (fun _ => true)).1) := by
  decide

/-- C6 amended: on every execution in which both initial connection
attempts succeed, both endpoints are disconnected before `run_sync`
returns (they are the final two events); when either connection attempt
fails, `run_sync` returns `False` immediately after the two connection
attempts, without disconnecting. -/
theorem run_sync_disconnect_amended (localOk neonOk : Bool)
    (direction : String) (outcome : Phase → Bool) :
    (localOk = true → neonOk = true →
      ∃ pre, (runTrace localOk neonOk direction outcome).1 =
        pre ++ [Event.disconnectLocal, Event.disconnectNeon]) ∧
    ((localOk && neonOk) = false →
      (runTrace localOk neonOk direction outcome).1 =
        [Event.connectLocal, Event.connectNeon] ∧
      (runTrace localOk neonOk direction outcome).2 = false) := by
  constructor
  · intro hl hn
    subst hl
    subst hn
    refine ⟨[Event.connectLocal, Event.connectNeon] ++
      (runPhases direction).map Event.phaseRun, ?_⟩
    simp [runTrace]
  · intro h
    have hc : (!localOk || !neonOk) = true := by
      cases localOk <;> cases neonOk <;> simp_all
    unfold runTrace
    rw [if_pos hc]
    exact ⟨rfl, rfl⟩

/-- Witness for the amended C6, both outcomes: a run with both connections
up ends in the two disconnect events; a run with the local connection down
stops after the two connection attempts with result `False`. -/
theorem run_sync_disconnect_amended_witness :
    (∃ pre, (runTrace true true "smart-sync" (fun _ => true)).1 =
        pre ++ [Event.disconnectLocal, Event.disconnectNeon]) ∧
    ((runTrace false true "smart-sync" (fun _ => true)).1 =
        [Event.connectLocal, Event.connectNeon] ∧
      (runTrace false true "smart-sync" (fun _ => true)).2 = false) :=
  ⟨(run_sync_disconnect_amended true true "smart-sync" (fun _ => true)).1 rfl rfl,
   (run_sync_disconnect_amended false true "smart-sync" (fun _ => true)).2 (by decide)⟩

/-- C7: `execute_query` never propagates an exception to its caller: on a
failed execution or fetch it attempts a rollback and returns the empty
list, and on success it returns the fetched rows — for every outcome of the
underlying cursor, including when the rollback itself fails. -/
theorem execute_query_never_throws :
    ∀ (res : Except String (List Row)) (rollbackOk : Bool),
      (∀ e, res = Except.error e → executeQuery res rollbackOk = ([], true)) ∧
      (∀ rows, res = Except.ok rows → executeQuery res rollbackOk = (rows, false)) := by
  intro res rb
  constructor
  · intro e he
    subst he
    rfl
  · intro rows hr
    subst hr
    rfl

/-- Witness for C7: a concrete failing query returns no rows with a
rollback, even when the rollback itself fails; a concrete successful query
returns its rows. -/
theorem execute_query_never_throws_witness :
    executeQuery (Except.error "relation does not exist") false = ([], true) ∧
    executeQuery (Except.ok [[("id", 1)]]) true = ([[("id", 1)]], false) :=
  ⟨(execute_query_never_throws (Except.error "relation does not exist") false).1 _ rfl,
   (execute_query_never_throws (Except.ok [[("id", 1)]]) true).2 _ rfl⟩

/-- C9: the counters of `sync_stats` start at zero when the syncer is
constructed for a run, and no operation of the syncer — neither a single
table sync nor a whole full-sync or new-records phase — ever decreases any
counter. -/
theorem sync_stats_zeroed_and_monotone :
    initStats.tables_synced = 0 ∧
    initStats.records_synced = 0 ∧
    initStats.errors = 0 ∧
    (∀ (r : TableResult) (s : SyncStats), statsLe s (syncTableStats r s)) ∧
    (∀ (results : List TableResult) (s : SyncStats),
      statsLe s (syncDatabaseStats results s)) ∧
    (∀ (results : List TableResult) (s : SyncStats),
      statsLe s (syncNewRecordsStats results s)) := by
  refine ⟨rfl, rfl, rfl, statsLe_syncTableStats, ?_, ?_⟩
  · intro results s
    exact statsLe_foldl _
      (fun s r => statsLe_syncDatabaseStep r s) results s
  · intro results s
    exact statsLe_foldl _ (fun s r => statsLe_syncTableStats r s) results s

/-- C10: a new-records phase never modifies `tables_synced`; the full-sync
phase increments it exactly once per table whose `sync_table` call
succeeds; hence in smart-sync (new-records phase then full-sync phase) the
final `tables_synced` reflects only the full-sync phase. -/
theorem new_records_phase_frames_tables_synced
    (rs1 rs2 : List TableResult) (s : SyncStats) :
    (syncNewRecordsStats rs1 s).tables_synced = s.tables_synced ∧
    (syncDatabaseStats rs2 s).tables_synced =
      s.tables_synced + (rs2.filter syncTableOk).length ∧
    (syncDatabaseStats rs2 (syncNewRecordsStats rs1 s)).tables_synced =
      s.tables_synced + (rs2.filter syncTableOk).length := by
  refine ⟨syncNewRecordsStats_tables rs1 s, syncDatabaseStats_tables rs2 s, ?_⟩
  rw [syncDatabaseStats_tables, syncNewRecordsStats_tables]

/-- C8 fails on the code: the column `counter bigint NOT NULL DEFAULT
nextval('t_counter_seq'::regclass)` has a sequence-backed default, yet it is
not rewritten to a target-native auto-increment column — `bigint` does not
contain `integer`, so the emitted definition is the bare `"counter" bigint`
with no `SERIAL` and no default — and the companion sequence's ownership is
bound to the table's `id` column, not to the `counter` column that carried
the default. -/
theorem create_table_sequence_counterexample :
    strContains "nextval('t_counter_seq'::regclass)" "nextval" = true ∧
    seqNameOf "nextval('t_counter_seq'::regclass)" = some "t_counter_seq" ∧
    colDef ⟨"counter", "bigint", "NO", some "nextval('t_counter_seq'::regclass)"⟩ =
      "\"counter\" bigint" ∧
    strContains
      (colDef ⟨"counter", "bigint", "NO", some "nextval('t_counter_seq'::regclass)"⟩)
      "SERIAL" = false ∧
    ownershipStatements "t"
        [⟨"counter", "bigint", "NO", some "nextval('t_counter_seq'::regclass)"⟩] =
      ["ALTER SEQUENCE t_counter_seq OWNED BY t.id"] := by
  refine ⟨rfl, rfl, rfl, rfl, rfl⟩

/-- C8 amended: when a column's default contains `nextval` and the sequence
name is extracted, the column is rewritten to `SERIAL` only if its declared
type contains `integer`; any other such column is emitted as the bare name
and type with the default dropped.  A companion `CREATE SEQUENCE` is issued
for the extracted name and its ownership is bound to the table's `id`
column, regardless of which column carried the default. -/
theorem create_table_sequence_amended
    (col : Col) (d tbl s : String)
    (hd : col.column_default = some d)
    (hnv : strContains d "nextval" = true)
    (hseq : seqNameOf d = some s) :
    (strContains col.data_type "integer" = true →
      colDef col = "\"" ++ col.column_name ++ "\" SERIAL") ∧
    (strContains col.data_type "integer" = false →
      colDef col = "\"" ++ col.column_name ++ "\" " ++ col.data_type) ∧
    colSeqs col = [s] ∧
    createSequenceStatements [col] = ["CREATE SEQUENCE IF NOT EXISTS " ++ s] ∧
    ownershipStatements tbl [col] =
      ["ALTER SEQUENCE " ++ s ++ " OWNED BY " ++ tbl ++ ".id"] := by
  have hseqs : colSeqs col = [s] := by
    simp [colSeqs, hd, hnv, hseq]
  refine ⟨?_, ?_, hseqs, ?_, ?_⟩
  · intro hint
    simp [colDef, hd, hnv, hseq, hint]
  · intro hint
    simp [colDef, hd, hnv, hseq, hint]
  · unfold createSequenceStatements sequencesToCreate
    rw [List.foldl_cons, List.foldl_nil, List.nil_append, hseqs]
    rfl
  · unfold ownershipStatements sequencesToCreate
    rw [List.foldl_cons, List.foldl_nil, List.nil_append, hseqs]
    rfl

/-- Witness for the amended C8 at two concrete columns: an `integer` column
becomes `SERIAL`; a `bigint` column keeps only its bare type, and its
sequence is bound to the table's `id` column. -/
theorem create_table_sequence_amended_witness :
    colDef ⟨"id", "integer", "NO", some "nextval('t_id_seq'::regclass)"⟩ =
      "\"" ++ "id" ++ "\" SERIAL" ∧
    colDef ⟨"counter", "bigint", "NO", some "nextval('t_counter_seq'::regclass)"⟩ =
      "\"" ++ "counter" ++ "\" " ++ "bigint" ∧
    ownershipStatements "t"
        [⟨"counter", "bigint", "NO", some "nextval('t_counter_seq'::regclass)"⟩] =
      ["ALTER SEQUENCE " ++ "t_counter_seq" ++ " OWNED BY " ++ "t" ++ ".id"] :=
  ⟨(create_table_sequence_amended
      ⟨"id", "integer", "NO", some "nextval('t_id_seq'::regclass)"⟩
      "nextval('t_id_seq'::regclass)" "t" "t_id_seq" rfl rfl rfl).1 rfl,
   (create_table_sequence_amended
      ⟨"counter", "bigint", "NO", some "nextval('t_counter_seq'::regclass)"⟩
      "nextval('t_counter_seq'::regclass)" "t" "t_counter_seq" rfl rfl rfl).2.1 rfl,
   (create_table_sequence_amended
      ⟨"counter", "bigint", "NO", some "nextval('t_counter_seq'::regclass)"⟩
      "nextval('t_counter_seq'::regclass)" "t" "t_counter_seq" rfl rfl rfl).2.2.2.2⟩

end DoorSync
